import Mathlib

/-
  Verification of the fuelfinder-archive converter and fetcher (main.go).

  The Go program fetches a CSV dataset over HTTP, validates it, and can
  convert it to nested JSON.  This file shallowly embeds the pure core of
  main.go: value coercion (normalizeValue, isNullableNumericField,
  parseFloat, parseBool), nested-object construction (setNestedValue),
  the CSV-to-JSON conversion loop (convertCSVToJSON), proxy URL
  construction (buildProxyURL, buildFuelFinderTargets) and the fallback
  fetch loop (fetchFuelData).

  Modelling conventions:
  - Go map[string]any values become an inductive GoVal; maps are
    association lists with at most one binding per key (mapSet replaces
    in place), which matches Go map lookup and update semantics.  The
    maps built by this program are trees (each nested map is reachable
    from exactly one slot), so functional update is faithful to the
    in-place mutation of the Go code.
  - float64 values carry their accepted source text (GoVal.num): no
    claim depends on numeric magnitude, only on which syntactic class a
    cell falls into and on success or failure of parsing.
  - encoding/csv lexing is not modelled: convertCSVToJSON takes the
    sequence of records that csv.Reader.Read yields.  The Go reader
    never yields a zero-field record.
  - encoding/json marshalling is modelled at the JSON value level
    (marshalRecords); the one byte-level fact the claims need is that a
    nil Go slice marshals to the JSON literal null, not to an array.
-/

/-- A Go value of type any as used by main.go: nil, float64, bool,
string, map[string]any, or a slice (only the top-level record slice). -/
inductive GoVal where
  | null
  | num (raw : String)
  | bool (b : Bool)
  | str (s : String)
  | obj (entries : List (String × GoVal))
  | arr (elems : List GoVal)
deriving Repr

/-- A Go map[string]any, as an association list in insertion order. -/
abbrev GoMap := List (String × GoVal)

/-- Lookup in a Go map: the value bound to the first (hence only)
occurrence of the key. -/
def mapGet : GoMap → String → Option GoVal
  | [], _ => none
  | (k, v) :: rest, key => if k = key then some v else mapGet rest key

/-- Update of a Go map: replace the binding in place if the key is
present, otherwise append a new binding. -/
def mapSet : GoMap → String → GoVal → GoMap
  | [], key, val => [(key, val)]
  | (k, v) :: rest, key, val =>
    if k = key then (key, val) :: rest else (k, v) :: mapSet rest key val

/-- Decides whether a list starts with the given pattern. -/
def listStartsWith (pat : List Char) (cs : List Char) : Bool :=
  match pat, cs with
  | [], _ => true
  | _ :: _, [] => false
  | p :: ps, c :: rest => p = c && listStartsWith ps rest

/-- Models strings.HasPrefix: the subject starts with the pattern. -/
def strStartsWith (s pat : String) : Bool := listStartsWith pat.toList s.toList

/-- Embeds isNullableNumericField from main.go: the hardcoded allow-list
of columns whose empty cells become JSON null and whose non-empty cells
must parse as float64. -/
def isNullableNumericField (key : String) : Bool :=
  if key = "forecourts.location.latitude" || key = "forecourts.location.longitude" then
    true
  else
    strStartsWith key "forecourts.fuel_price."

/-- Decimal digit test over characters. -/
def isDecDigit (c : Char) : Bool := '0' ≤ c && c ≤ '9'

/-- Hexadecimal digit test over characters. -/
def isHexDigit (c : Char) : Bool :=
  isDecDigit c || ('a' ≤ c && c ≤ 'f') || ('A' ≤ c && c ≤ 'F')

/-- An optional sign followed by at least one decimal digit and nothing
else: the exponent tail of a float literal. -/
def signedDigits (cs : List Char) : Bool :=
  match cs with
  | '+' :: rest => rest ≠ [] && rest.all isDecDigit
  | '-' :: rest => rest ≠ [] && rest.all isDecDigit
  | _ => cs ≠ [] && cs.all isDecDigit

/-- The optional decimal exponent part: empty, or e or E followed by
signed digits. -/
def decExpOK (cs : List Char) : Bool :=
  match cs with
  | [] => true
  | 'e' :: rest => signedDigits rest
  | 'E' :: rest => signedDigits rest
  | _ => false

/-- The mandatory binary exponent of a hexadecimal float literal: p or P
followed by signed digits. -/
def hexExpOK (cs : List Char) : Bool :=
  match cs with
  | 'p' :: rest => signedDigits rest
  | 'P' :: rest => signedDigits rest
  | _ => false

/-- A decimal mantissa with optional fraction and optional exponent, at
least one digit overall. -/
def validDecimal (cs : List Char) : Bool :=
  let p := cs.span isDecDigit
  match p.2 with
  | '.' :: rest2 =>
    let q := rest2.span isDecDigit
    (p.1 ≠ [] || q.1 ≠ []) && decExpOK q.2
  | rest => p.1 ≠ [] && decExpOK rest

/-- A hexadecimal mantissa with optional fraction followed by the
mandatory binary exponent. -/
def validHexTail (rest : List Char) : Bool :=
  let p := rest.span isHexDigit
  match p.2 with
  | '.' :: rest2 =>
    let q := rest2.span isHexDigit
    (p.1 ≠ [] || q.1 ≠ []) && hexExpOK q.2
  | r => p.1 ≠ [] && hexExpOK r

/-- A hexadecimal float literal body: 0x or 0X, hex mantissa with
optional fraction, mandatory binary exponent. -/
def validHex (cs : List Char) : Bool :=
  match cs with
  | '0' :: 'x' :: rest => validHexTail rest
  | '0' :: 'X' :: rest => validHexTail rest
  | _ => false

/-- Lower-cases a character list, for the case-insensitive special float
words. -/
def lowerAll (cs : List Char) : List Char := cs.map Char.toLower

/-- Strips one leading sign character. -/
def stripSign (cs : List Char) : List Char :=
  match cs with
  | '+' :: rest => rest
  | '-' :: rest => rest
  | _ => cs

/-- Models the acceptance condition of strconv.ParseFloat(s, 64): the
special words (inf and infinity with optional sign, nan without sign,
case-insensitively), or a signed decimal or hexadecimal float literal.
Underscore digit separators and out-of-range errors are not modelled;
no claim exercises them. -/
def goParseFloatOK (s : String) : Bool :=
  let cs := s.toList
  if lowerAll cs = ['n', 'a', 'n'] then true
  else
    let body := stripSign cs
    if lowerAll body = ['i', 'n', 'f'] then true
    else if lowerAll body = ['i', 'n', 'f', 'i', 'n', 'i', 't', 'y'] then true
    else validDecimal body || validHex body

/-- Embeds parseFloat from main.go (strconv.ParseFloat(raw, 64)); the
parsed value is represented by its source text, and the error string
follows the strconv.NumError format for plain inputs. -/
def parseFloat (raw : String) : Except String GoVal :=
  if goParseFloatOK raw then .ok (GoVal.num raw)
  else .error ("strconv.ParseFloat: parsing \"" ++ raw ++ "\": invalid syntax")

/-- Embeds parseBool from main.go (strconv.ParseBool): the twelve exact
literals it accepts. -/
def parseBool (raw : String) : Except String Bool :=
  if raw = "1" || raw = "t" || raw = "T" || raw = "TRUE" || raw = "true" || raw = "True" then
    .ok true
  else if raw = "0" || raw = "f" || raw = "F" || raw = "FALSE" || raw = "false" || raw = "False" then
    .ok false
  else
    .error ("strconv.ParseBool: parsing \"" ++ raw ++ "\": invalid syntax")

/-- Embeds normalizeValue from main.go: per-cell coercion driven by the
header key and the raw cell text, in the source order of checks. -/
def normalizeValue (key raw : String) : Except String GoVal :=
  if raw = "" then
    if isNullableNumericField key then .ok GoVal.null
    else .ok (GoVal.str "")
  else if isNullableNumericField key then
    match parseFloat raw with
    | .error e => .error e
    | .ok v => .ok v
  else if raw = "true" || raw = "false" then
    match parseBool raw with
    | .error e => .error e
    | .ok b => .ok (GoVal.bool b)
  else
    .ok (GoVal.str raw)

/-- The loop body of setNestedValue from main.go.  consumed holds the
path segments already walked (so error messages can name the offending
prefix, as strings.Join(path[:i+1], ".") does); current is the map the
walk has reached.  The Go code mutates nested maps in place; because the
maps form a tree, rebuilding the walked spine functionally is
equivalent. -/
def setNestedValueGo (current : GoMap) (consumed : List String)
    (path : List String) (value : GoVal) : Except String GoMap :=
  match path with
  | [] => .error "empty key path"
  | [leaf] =>
    if leaf = "" then .error "empty key segment"
    else .ok (mapSet current leaf value)
  | seg :: rest =>
    if seg = "" then .error "empty key segment"
    else
      match mapGet current seg with
      | some (GoVal.obj nested) =>
        match setNestedValueGo nested (consumed ++ [seg]) rest value with
        | .error e => .error e
        | .ok nested2 => .ok (mapSet current seg (GoVal.obj nested2))
      | some _ =>
        .error (String.intercalate "." (consumed ++ [seg]) ++ " is not an object")
      | none =>
        match setNestedValueGo [] (consumed ++ [seg]) rest value with
        | .error e => .error e
        | .ok nested2 => .ok (mapSet current seg (GoVal.obj nested2))

/-- Embeds setNestedValue from main.go: graft value into root at the
location named by path, creating intermediate objects as needed. -/
def setNestedValue (root : GoMap) (path : List String) (value : GoVal) :
    Except String GoMap :=
  setNestedValueGo root [] path value

/-- The scan of strings.Split for a non-empty separator, written with a
fuel argument so that the recursion is structural (the fuel is always
instantiated with the length of the subject, which suffices because
every step consumes at least one character): cut the list at each
non-overlapping occurrence of the separator, left to right. -/
def goSplitListF (sep : List Char) : Nat → List Char → List (List Char)
  | _, [] => [[]]
  | 0, _ :: _ => [[]]
  | fuel + 1, c :: rest =>
    if 0 < sep.length ∧ listStartsWith sep (c :: rest) then
      [] :: goSplitListF sep fuel ((c :: rest).drop sep.length)
    else
      match goSplitListF sep fuel rest with
      | [] => [[c]]
      | grp :: grps => (c :: grp) :: grps

/-- The scan of strings.Split for a non-empty separator. -/
def goSplitList (sep cs : List Char) : List (List Char) :=
  goSplitListF sep cs.length cs

/-- Models strings.Split(s, sep): for an empty separator, explode into
runes; otherwise cut around each occurrence of the separator.  The
empty subject yields the singleton list holding the empty string. -/
def goSplit (s sep : String) : List String :=
  if sep = "" then s.toList.map (fun c => String.mk [c])
  else (goSplitList sep.toList s.toList).map String.mk

/-- The inner loop of convertCSVToJSON over the (key, cell) pairs of one
row, in header order: coerce the cell, wrap coercion errors as
parse-errors, graft the value, wrap grafting errors as set-errors. -/
def buildEntry (entry : GoMap) : List (String × String) → Except String GoMap
  | [] => .ok entry
  | (key, cell) :: rest =>
    match normalizeValue key cell with
    | .error e => .error ("parse " ++ key ++ ": " ++ e)
    | .ok value =>
      match setNestedValue entry (goSplit key ".") value with
      | .error e => .error ("set " ++ key ++ ": " ++ e)
      | .ok entry2 => buildEntry entry2 rest

/-- Conversion of one data row of convertCSVToJSON: the strict field
count check, then the per-column loop on a fresh entry. -/
def processRow (header row : List String) : Except String GoMap :=
  if row.length ≠ header.length then
    .error ("row has " ++ toString row.length ++ " fields, expected "
      ++ toString header.length)
  else
    buildEntry [] (header.zip row)

/-- The row loop of convertCSVToJSON: convert each data row in order,
stopping at the first error. -/
def convertRows (header : List String) : List (List String) → Except String (List GoMap)
  | [] => .ok []
  | row :: rest =>
    match processRow header row with
    | .error e => .error e
    | .ok entry =>
      match convertRows header rest with
      | .error e => .error e
      | .ok entries => .ok (entry :: entries)

/-- Models json.MarshalIndent on the records slice at the JSON value
level: the records variable of convertCSVToJSON is a nil Go slice
exactly when no row was appended, and encoding/json marshals a nil
slice to the JSON literal null rather than to an array.  Byte-level
rendering (indentation, key sorting of maps) is not modelled; no claim
depends on it. -/
def marshalRecords : List GoMap → GoVal
  | [] => GoVal.null
  | recs => GoVal.arr (recs.map GoVal.obj)

/-- Embeds convertCSVToJSON from main.go over the record sequence that
csv.Reader.Read yields (with FieldsPerRecord disabled, the reader skips
blank lines and never yields a zero-field record; on an empty payload
the first Read returns io.EOF, which the function returns as an
error). -/
def convertCSVToJSON (csvRecords : List (List String)) : Except String GoVal :=
  match csvRecords with
  | [] => .error "EOF"
  | header :: rows =>
    if header.length = 0 then .error "missing header row"
    else
      match convertRows header rows with
      | .error e => .error e
      | .ok recs => .ok (marshalRecords recs)

/-- The canonical upstream endpoint (constant fuelFinderURL in
main.go). -/
def fuelFinderURL : String :=
  "https://www.fuel-finder.service.gov.uk/internal/v1.0.2/csv/get-latest-fuel-prices-csv"

/-- Models strings.Contains: some suffix of the subject starts with the
pattern. -/
def goContainsList (pat : List Char) : List Char → Bool
  | [] => pat = []
  | c :: rest => listStartsWith pat (c :: rest) || goContainsList pat rest

/-- Models strings.Contains over strings. -/
def goContains (s pat : String) : Bool := goContainsList pat.toList s.toList

/-- The scan of strings.ReplaceAll for a non-empty pattern, written
with a fuel argument so that the recursion is structural (the fuel is
always instantiated with the length of the subject, which suffices
because every step consumes at least one character): replace
non-overlapping occurrences left to right. -/
def goReplaceScanF (pat rep : List Char) : Nat → List Char → List Char
  | _, [] => []
  | 0, cs => cs
  | fuel + 1, c :: rest =>
    if 0 < pat.length ∧ listStartsWith pat (c :: rest) then
      rep ++ goReplaceScanF pat rep fuel ((c :: rest).drop pat.length)
    else
      c :: goReplaceScanF pat rep fuel rest

/-- The scan of strings.ReplaceAll for a non-empty pattern. -/
def goReplaceScan (pat rep cs : List Char) : List Char :=
  goReplaceScanF pat rep cs.length cs

/-- The degenerate case of strings.ReplaceAll with an empty pattern: the
replacement is inserted before every rune and at the end. -/
def goInterleave (rep : List Char) : List Char → List Char
  | [] => rep
  | c :: rest => rep ++ c :: goInterleave rep rest

/-- Models strings.ReplaceAll(s, pat, rep). -/
def goReplaceAll (s pat rep : String) : String :=
  if pat = "" then String.mk (goInterleave rep.toList s.toList)
  else String.mk (goReplaceScan pat.toList rep.toList s.toList)

/-- The uppercase hexadecimal digit for a value below 16. -/
def hexDigitUpper (n : Nat) : Char :=
  if n < 10 then Char.ofNat (48 + n) else Char.ofNat (55 + n)

/-- Decides whether a byte stays literal under url.QueryEscape:
ASCII letters, digits, and the four unreserved marks. -/
def queryUnreserved (b : Nat) : Bool :=
  (65 ≤ b && b ≤ 90) || (97 ≤ b && b ≤ 122) || (48 ≤ b && b ≤ 57) ||
    b = 45 || b = 95 || b = 46 || b = 126

/-- Models the per-byte output of url.QueryEscape: space becomes a plus
sign, unreserved bytes stay, every other byte becomes a percent escape
with uppercase hex digits. -/
def queryEscapeByte (b : Nat) : List Char :=
  if b = 32 then ['+']
  else if queryUnreserved b then [Char.ofNat b]
  else ['%', hexDigitUpper (b / 16), hexDigitUpper (b % 16)]

/-- The UTF-8 encoding of one character, as byte values. -/
def utf8Bytes (c : Char) : List Nat :=
  let n := c.toNat
  if n < 0x80 then [n]
  else if n < 0x800 then [0xC0 + n / 64, 0x80 + n % 64]
  else if n < 0x10000 then
    [0xE0 + n / 4096, 0x80 + n / 64 % 64, 0x80 + n % 64]
  else
    [0xF0 + n / 262144, 0x80 + n / 4096 % 64, 0x80 + n / 64 % 64, 0x80 + n % 64]

/-- Models url.QueryEscape over the UTF-8 bytes of the string. -/
def queryEscape (s : String) : String :=
  String.mk (((s.toList.map utf8Bytes).flatten.map queryEscapeByte).flatten)

/-- Embeds buildProxyURL from main.go: substitute the placeholder token
(an opening brace, the word url, a closing brace) with the escaped
target when the template contains it, otherwise prefix-concatenate. -/
def buildProxyURL (template target : String) : String :=
  if goContains template "\x7burl\x7d" then
    goReplaceAll template "\x7burl\x7d" (queryEscape target)
  else
    template ++ target

/-- Models strings.TrimSpace via the unicode.IsSpace character class:
the ASCII whitespace characters together with the Unicode space
code points that Go treats as white space. -/
def goIsSpace (c : Char) : Bool :=
  c = ' ' || c = '\t' || c = '\n' || c.toNat = 11 || c.toNat = 12 ||
    c = '\r' || c.toNat = 0x85 || c.toNat = 0xA0 || c.toNat = 0x1680 ||
    (0x2000 ≤ c.toNat && c.toNat ≤ 0x200A) || c.toNat = 0x2028 ||
    c.toNat = 0x2029 || c.toNat = 0x202F || c.toNat = 0x205F ||
    c.toNat = 0x3000

/-- Models strings.TrimSpace: drop leading and trailing white space. -/
def goTrimSpace (s : String) : String :=
  String.mk (((s.toList.dropWhile goIsSpace).reverse.dropWhile goIsSpace).reverse)

/-- Embeds buildFuelFinderTargets from main.go, as a function of the
FUEL_PROXY_TEMPLATE environment value it reads: trim it, and append the
proxy target exactly when something is left. -/
def buildFuelFinderTargets (fuelProxyTemplateEnv : String) : List String :=
  let proxyTemplate := goTrimSpace fuelProxyTemplateEnv
  if proxyTemplate = "" then [fuelFinderURL]
  else [fuelFinderURL, buildProxyURL proxyTemplate fuelFinderURL]

/-- The observable outcome of one HTTP GET attempt in
fetchFuelDataFromURL: a transport error from client.Do, or a response
with a status code, a status line, and a body. -/
inductive FetchOutcome where
  | netError (msg : String)
  | response (statusCode : Nat) (status : String) (body : List Nat)
deriving Repr, DecidableEq

/-- Embeds the result classification of fetchFuelDataFromURL from
main.go, over an abstract per-target outcome: transport errors are
wrapped, a non-200 status is an error naming the status line, and a 200
response yields its body bytes.  Request construction and body read
errors are subsumed under the transport error case. -/
def fetchFuelDataFromURL (outcome : FetchOutcome) : Except String (List Nat) :=
  match outcome with
  | .netError msg => .error ("fetch fuel data: " ++ msg)
  | .response statusCode status body =>
    if statusCode ≠ 200 then .error ("unexpected status: " ++ status)
    else .ok body

/-- The loop of fetchFuelData from main.go, with the running lastErr
accumulator made explicit. -/
def fetchFuelDataGo (outcomes : String → FetchOutcome) :
    List String → Option String → Except String (List Nat)
  | [], none => .error "failed to fetch fuel data"
  | [], some e => .error e
  | target :: rest, _lastErr =>
    match fetchFuelDataFromURL (outcomes target) with
    | .error e => fetchFuelDataGo outcomes rest (some e)
    | .ok body =>
      if body.length = 0 then
        fetchFuelDataGo outcomes rest (some "received empty response")
      else .ok body

/-- Embeds fetchFuelData from main.go: try each target in order and
return the first non-empty 200 body, else the last recorded error, else
the generic failure. -/
def fetchFuelData (outcomes : String → FetchOutcome) (targets : List String) :
    Except String (List Nat) :=
  fetchFuelDataGo outcomes targets none
/-- Spec-side description of the C6 failure condition, written from the
words of the specification: walking the segments of the path from left
to right and excluding the last, the first prefix that names an already
existing value which is not itself an object; acc holds the segments
already walked, and the answer is the full dotted prefix up to and
including the offending segment.  none means no such conflict exists
(absent segments would be created as fresh objects). -/
def conflictPrefix (m : GoMap) (acc : List String) : List String → Option (List String)
  | [] => none
  | [_] => none
  | seg :: rest =>
    match mapGet m seg with
    | some (GoVal.obj nested) => conflictPrefix nested (acc ++ [seg]) rest
    | some _ => some (acc ++ [seg])
    | none => none

/-- Spec-side classification of one fetch attempt, written from the
words of the specification: the body, when the outcome is an HTTP 200
response with a non-empty body; none otherwise. -/
def attemptSuccess (o : FetchOutcome) : Option (List Nat) :=
  match o with
  | .netError _ => none
  | .response code _ body =>
    if code = 200 ∧ body.length ≠ 0 then some body else none

/-- Spec-side description of the fetch result on success, written from
the words of the specification: the body of the first target in order
whose attempt yields HTTP 200 with a non-empty body. -/
def firstSuccessBody (outcomes : String → FetchOutcome) : List String → Option (List Nat)
  | [] => none
  | t :: rest =>
    match attemptSuccess (outcomes t) with
    | some body => some body
    | none => firstSuccessBody outcomes rest

/-- Spec-side description of the error recorded for a failed attempt on
one target: the wrapped transport error, the status error for a non-200
response, or the empty-response error for a 200 response whose body is
empty. -/
def recordedError (outcomes : String → FetchOutcome) (t : String) : String :=
  match outcomes t with
  | .netError msg => "fetch fuel data: " ++ msg
  | .response code status _ =>
    if code ≠ 200 then "unexpected status: " ++ status
    else "received empty response"

example : goSplit "a..b" "." = ["a", "", "b"] := rfl

example : goSplit "" "." = [""] := rfl

example : goSplit "a." "." = ["a", ""] := rfl

example : queryEscape "a b/c" = "a+b%2Fc" := rfl

example : setNestedValue [] ["a", "b"] (GoVal.str "1") =
    .ok [("a", GoVal.obj [("b", GoVal.str "1")])] := rfl

example : setNestedValue [("a", GoVal.str "x")] ["a", "b"] (GoVal.str "1") =
    .error "a is not an object" := rfl

example : convertCSVToJSON
    [["forecourts.fuel_price.diesel", "forecourts.location.latitude", "brand"],
     ["1.459", "51.5", "Shell"]] =
    .ok (GoVal.arr [GoVal.obj
      [("forecourts", GoVal.obj
        [("fuel_price", GoVal.obj [("diesel", GoVal.num "1.459")]),
         ("location", GoVal.obj [("latitude", GoVal.num "51.5")])]),
       ("brand", GoVal.str "Shell")]]) := rfl

example : convertCSVToJSON
    [["forecourts.fuel_price.diesel", "forecourts.location.latitude", "brand"],
     ["", "", ""]] =
    .ok (GoVal.arr [GoVal.obj
      [("forecourts", GoVal.obj
        [("fuel_price", GoVal.obj [("diesel", GoVal.null)]),
         ("location", GoVal.obj [("latitude", GoVal.null)])]),
       ("brand", GoVal.str "")]]) := rfl

/-- Lookup after update: the updated key maps to the new value. -/
theorem mapGet_mapSet (m : GoMap) (k : String) (v : GoVal) :
    mapGet (mapSet m k v) k = some v := by
  induction m with
  | nil => simp [mapSet, mapGet]
  | cons p rest ih =>
    obtain ⟨k2, v2⟩ := p
    by_cases h : k2 = k
    · subst h; simp [mapSet, mapGet]
    · simp [mapSet, mapGet, h, ih]

/-- C1 counterexample: on the one-column header brand with zero data
rows, convertCSVToJSON succeeds but yields the JSON literal null (the
nil record slice), which is not the empty JSON array. -/
theorem convertCSVToJSON_header_only_cex :
    convertCSVToJSON [["brand"]] = .ok GoVal.null ∧ GoVal.null ≠ GoVal.arr [] :=
  ⟨rfl, nofun⟩

/-- C1 (amended): for every well-formed header row and zero data rows,
convertCSVToJSON succeeds and its output is the serialization of the
JSON literal null (encoding/json marshals the nil record slice as
null), not an empty array. -/
theorem convertCSVToJSON_header_only (header : List String) (h : header ≠ []) :
    convertCSVToJSON [header] = .ok GoVal.null := by
  simp [convertCSVToJSON, convertRows, marshalRecords, List.length_eq_zero, h]

/-- Witness for the C1 theorem at a concrete two-column header. -/
theorem convertCSVToJSON_header_only_witness :
    convertCSVToJSON [["brand", "postcode"]] = .ok GoVal.null :=
  convertCSVToJSON_header_only ["brand", "postcode"] (by decide)

/-- C2 counterexample: on the nullable-numeric key
forecourts.location.latitude, the cell text true reaches the float
parser and normalizeValue fails instead of returning a JSON boolean. -/
theorem normalizeValue_nullable_true_cex :
    normalizeValue "forecourts.location.latitude" "true" =
      .error "strconv.ParseFloat: parsing \"true\": invalid syntax" ∧
    (Except.error "strconv.ParseFloat: parsing \"true\": invalid syntax"
      : Except String GoVal) ≠ .ok (GoVal.bool true) ∧
    (Except.error "strconv.ParseFloat: parsing \"true\": invalid syntax"
      : Except String GoVal) ≠ .ok (GoVal.bool false) :=
  ⟨rfl, nofun, nofun⟩

/-- C2 (amended): for every header key that is not a nullable-numeric
field and every non-empty cell, the exact texts true and false become
JSON booleans, and every other text (including alternate casings such
as True or TRUE, and texts like 1 or yes) is returned verbatim as a
JSON string; on nullable-numeric keys the cell goes to the float parser
instead. -/
theorem normalizeValue_bool_coercion (key raw : String)
    (hkey : isNullableNumericField key = false) (hraw : raw ≠ "") :
    normalizeValue key raw =
      .ok (if raw = "true" then GoVal.bool true
        else if raw = "false" then GoVal.bool false
        else GoVal.str raw) := by
  unfold normalizeValue
  rw [if_neg hraw, if_neg (by simp [hkey])]
  by_cases h1 : raw = "true"
  · subst h1; simp [parseBool]
  · by_cases h2 : raw = "false"
    · subst h2; simp [parseBool]
    · simp [h1, h2]

/-- Witness for the C2 theorem on the key brand: the literal true is
boolean-coerced, the alternate casing True stays a string. -/
theorem normalizeValue_bool_coercion_witness :
    isNullableNumericField "brand" = false ∧
    normalizeValue "brand" "true" = .ok (GoVal.bool true) ∧
    normalizeValue "brand" "True" = .ok (GoVal.str "True") := by
  refine ⟨by decide, ?_, ?_⟩
  · exact normalizeValue_bool_coercion "brand" "true" (by decide) (by decide)
  · exact normalizeValue_bool_coercion "brand" "True" (by decide) (by decide)

/-- C3 counterexample: a setNestedValue call whose final segment names a
location currently holding a nested object succeeds and silently
replaces that object with the scalar. -/
theorem setNestedValue_overwrite_cex :
    setNestedValue [("a", GoVal.obj [("b", GoVal.str "1")])] ["a"] (GoVal.str "2") =
      .ok [("a", GoVal.str "2")] := rfl

/-- C3 (amended): when the final segment of the key path names a
location currently holding a nested object, setNestedValue succeeds and
silently overwrites the object with the new value; only intermediate
segments that collide with a non-object raise an error. -/
theorem setNestedValue_leaf_overwrite (m : GoMap) (k : String)
    (o : List (String × GoVal)) (v : GoVal)
    (hk : k ≠ "") (ho : mapGet m k = some (GoVal.obj o)) :
    setNestedValue m [k] v = .ok (mapSet m k v) ∧
      mapGet (mapSet m k v) k = some v := by
  constructor
  · simp [setNestedValue, setNestedValueGo, hk]
  · exact mapGet_mapSet m k v

/-- Witness for the C3 theorem: overwriting the materialized object
under the key a with a scalar. -/
theorem setNestedValue_leaf_overwrite_witness :
    setNestedValue [("a", GoVal.obj [("b", GoVal.str "1")])] ["a"] (GoVal.str "2") =
      .ok (mapSet [("a", GoVal.obj [("b", GoVal.str "1")])] "a" (GoVal.str "2")) ∧
    mapGet (mapSet [("a", GoVal.obj [("b", GoVal.str "1")])] "a" (GoVal.str "2")) "a" =
      some (GoVal.str "2") :=
  setNestedValue_leaf_overwrite [("a", GoVal.obj [("b", GoVal.str "1")])] "a"
    [("b", GoVal.str "1")] (GoVal.str "2") (by decide) rfl

/-- C4: an empty cell coerces to JSON null exactly on the
nullable-numeric keys (latitude, longitude, or a forecourts.fuel_price.
prefix) and to the empty JSON string on every other key, never null. -/
theorem normalizeValue_empty_cell (key : String) :
    normalizeValue key "" =
      .ok (if key = "forecourts.location.latitude" ∨
            key = "forecourts.location.longitude" ∨
            strStartsWith key "forecourts.fuel_price." = true
          then GoVal.null else GoVal.str "") := by
  unfold normalizeValue
  rw [if_pos rfl]
  by_cases h1 : key = "forecourts.location.latitude" <;>
    by_cases h2 : key = "forecourts.location.longitude" <;>
      by_cases h3 : strStartsWith key "forecourts.fuel_price." = true <;>
        simp [isNullableNumericField, h1, h2, h3]

/-- A path containing an empty segment always makes the walk fail,
whatever map, consumed prefix, or value it is run with. -/
theorem setNestedValueGo_empty_seg (path : List String) (hmem : "" ∈ path) :
    ∀ (current : GoMap) (consumed : List String) (v : GoVal),
    ∃ e, setNestedValueGo current consumed path v = .error e := by
  induction path with
  | nil => cases hmem
  | cons seg rest ih =>
    intro current consumed v
    cases rest with
    | nil =>
      have hseg : seg = "" := by simpa [eq_comm] using hmem
      subst hseg
      exact ⟨"empty key segment", rfl⟩
    | cons s2 rest2 =>
      by_cases hseg : seg = ""
      · subst hseg
        exact ⟨"empty key segment", rfl⟩
      · have hmem2 : "" ∈ s2 :: rest2 := by
          rcases List.mem_cons.mp hmem with h | h
          · exact absurd h.symm hseg
          · exact h
        cases hget : mapGet current seg with
        | none =>
          obtain ⟨e, he⟩ := ih hmem2 [] (consumed ++ [seg]) v
          exact ⟨e, by simp [setNestedValueGo, hseg, hget, he]⟩
        | some val =>
          cases val with
          | obj nested =>
            obtain ⟨e, he⟩ := ih hmem2 nested (consumed ++ [seg]) v
            exact ⟨e, by simp [setNestedValueGo, hseg, hget, he]⟩
          | null =>
            exact ⟨String.intercalate "." (consumed ++ [seg]) ++ " is not an object",
              by simp [setNestedValueGo, hseg, hget]⟩
          | num r =>
            exact ⟨String.intercalate "." (consumed ++ [seg]) ++ " is not an object",
              by simp [setNestedValueGo, hseg, hget]⟩
          | bool b =>
            exact ⟨String.intercalate "." (consumed ++ [seg]) ++ " is not an object",
              by simp [setNestedValueGo, hseg, hget]⟩
          | str s =>
            exact ⟨String.intercalate "." (consumed ++ [seg]) ++ " is not an object",
              by simp [setNestedValueGo, hseg, hget]⟩
          | arr l =>
            exact ⟨String.intercalate "." (consumed ++ [seg]) ++ " is not an object",
              by simp [setNestedValueGo, hseg, hget]⟩

/-- A path with an empty segment makes setNestedValue fail. -/
theorem setNestedValue_empty_seg (path : List String) (hmem : "" ∈ path)
    (root : GoMap) (v : GoVal) : ∃ e, setNestedValue root path v = .error e :=
  setNestedValueGo_empty_seg path hmem root [] v

/-- If some pair in the remaining column list has a key whose dotted
split contains an empty segment, the per-row loop fails. -/
theorem buildEntry_empty_seg : ∀ (pairs : List (String × String)) (entry : GoMap),
    (∃ p ∈ pairs, "" ∈ goSplit p.1 ".") →
    ∃ e, buildEntry entry pairs = .error e := by
  intro pairs
  induction pairs with
  | nil =>
    intro entry h
    rcases h with ⟨p, hp, _⟩
    cases hp
  | cons pc rest ih =>
    intro entry h
    obtain ⟨key, cell⟩ := pc
    cases hnv : normalizeValue key cell with
    | error e =>
      exact ⟨"parse " ++ key ++ ": " ++ e, by simp [buildEntry, hnv]⟩
    | ok v =>
      cases hsv : setNestedValue entry (goSplit key ".") v with
      | error e =>
        exact ⟨"set " ++ key ++ ": " ++ e, by simp [buildEntry, hnv, hsv]⟩
      | ok entry2 =>
        rcases h with ⟨p, hp, hbad⟩
        rcases List.mem_cons.mp hp with h1 | h1
        · subst h1
          obtain ⟨e, he⟩ := setNestedValue_empty_seg _ hbad entry v
          rw [he] at hsv
          cases hsv
        · obtain ⟨e, he⟩ := ih entry2 ⟨p, h1, hbad⟩
          exact ⟨e, by simp [buildEntry, hnv, hsv, he]⟩

/-- A member of the left list appears in the zip when the lengths
agree. -/
theorem mem_zip_of_mem_left : ∀ (ks cs : List String) (k : String),
    ks.length = cs.length → k ∈ ks → ∃ c, (k, c) ∈ ks.zip cs := by
  intro ks
  induction ks with
  | nil =>
    intro cs k _ hk
    cases hk
  | cons k0 rest ih =>
    intro cs k hlen hk
    cases cs with
    | nil => simp at hlen
    | cons c0 cs2 =>
      rcases List.mem_cons.mp hk with h | h
      · subst h
        exact ⟨c0, List.mem_cons_self _ _⟩
      · obtain ⟨c, hc⟩ := ih cs2 k (by simpa using hlen) h
        exact ⟨c, List.mem_cons_of_mem _ hc⟩

/-- C10 counterexample: the header key forecourts.fuel_price. has an
empty final segment, yet on the row abc conversion fails with a float
parse error from normalizeValue, not with an empty-key-segment error
from setNestedValue. -/
theorem convertCSVToJSON_empty_segment_cex :
    convertCSVToJSON [["forecourts.fuel_price."], ["abc"]] =
      .error "parse forecourts.fuel_price.: strconv.ParseFloat: parsing \"abc\": invalid syntax" ∧
    ("" ∈ goSplit "forecourts.fuel_price." ".") ∧
    "parse forecourts.fuel_price.: strconv.ParseFloat: parsing \"abc\": invalid syntax" ≠
      "set forecourts.fuel_price.: empty key segment" :=
  ⟨rfl, by decide, by decide⟩

/-- C10 (amended): for every header containing a key with an empty path
segment, conversion with at least one data row always fails with some
error (an empty-key-segment error from setNestedValue unless a
value-coercion failure on an earlier or the same column is reported
first), so no record with an empty-string key is ever produced. -/
theorem convertCSVToJSON_empty_segment (header : List String)
    (rows : List (List String)) (key : String)
    (hkey : key ∈ header) (hbad : "" ∈ goSplit key ".") (hrows : rows ≠ []) :
    ∃ e, convertCSVToJSON (header :: rows) = .error e := by
  cases rows with
  | nil => exact absurd rfl hrows
  | cons r rest =>
    by_cases hhe : header.length = 0
    · exact ⟨"missing header row", by simp [convertCSVToJSON, hhe]⟩
    · have hrowerr : ∃ e, processRow header r = .error e := by
        by_cases hlen : r.length = header.length
        · obtain ⟨c, hc⟩ := mem_zip_of_mem_left header r key hlen.symm hkey
          obtain ⟨e, he⟩ := buildEntry_empty_seg (header.zip r) [] ⟨(key, c), hc, hbad⟩
          exact ⟨e, by simp [processRow, hlen, he]⟩
        · exact ⟨"row has " ++ toString r.length ++ " fields, expected "
            ++ toString header.length, by simp [processRow, hlen]⟩
      obtain ⟨e, he⟩ := hrowerr
      exact ⟨e, by simp [convertCSVToJSON, hhe, convertRows, he]⟩

/-- Witness for the C10 theorem on the header a..b with one data
row. -/
theorem convertCSVToJSON_empty_segment_witness :
    ∃ e, convertCSVToJSON [["a..b"], ["1"]] = .error e :=
  convertCSVToJSON_empty_segment ["a..b"] [["1"]] "a..b"
    (by decide) (by decide) (by decide)

/-- If some row in the remaining list has a field count different from
the header, the row loop fails with some error. -/
theorem convertRows_mismatch : ∀ (rows : List (List String)) (header : List String),
    (∃ r ∈ rows, r.length ≠ header.length) →
    ∃ e, convertRows header rows = .error e := by
  intro rows
  induction rows with
  | nil =>
    intro header h
    rcases h with ⟨r, hr, _⟩
    cases hr
  | cons r rest ih =>
    intro header h
    cases hpr : processRow header r with
    | error e => exact ⟨e, by simp [convertRows, hpr]⟩
    | ok m =>
      have hlen : r.length = header.length := by
        by_contra hne
        simp [processRow, hne] at hpr
      rcases h with ⟨r2, hr2, hbad⟩
      rcases List.mem_cons.mp hr2 with h1 | h1
      · subst h1
        exact absurd hlen hbad
      · obtain ⟨e, he⟩ := ih header ⟨r2, h1, hbad⟩
        exact ⟨e, by simp [convertRows, hpr, he]⟩

/-- When every earlier row converts successfully, the first mismatched
row is reported with the field-count error naming both counts. -/
theorem convertRows_first_mismatch : ∀ (pre : List (List String))
    (header : List String) (row : List String) (post : List (List String)),
    (∀ r ∈ pre, ∃ m, processRow header r = .ok m) →
    row.length ≠ header.length →
    convertRows header (pre ++ row :: post) =
      .error ("row has " ++ toString row.length ++ " fields, expected "
        ++ toString header.length) := by
  intro pre
  induction pre with
  | nil =>
    intro header row post _ hlen
    simp [convertRows, processRow, hlen]
  | cons r rest ih =>
    intro header row post hok hlen
    obtain ⟨m, hm⟩ := hok r (List.mem_cons_self _ _)
    have hrest := ih header row post (fun r2 h2 => hok r2 (List.mem_cons_of_mem _ h2)) hlen
    simp [convertRows, hm, hrest]

/-- C5 counterexample: the second data row has two fields against a
one-field header, yet conversion fails with a float parse error from
the first row, not with a field-count-mismatch error. -/
theorem convertCSVToJSON_field_count_cex :
    convertCSVToJSON [["forecourts.fuel_price.x"], ["abc"], ["1", "2"]] =
      .error "parse forecourts.fuel_price.x: strconv.ParseFloat: parsing \"abc\": invalid syntax" ∧
    "parse forecourts.fuel_price.x: strconv.ParseFloat: parsing \"abc\": invalid syntax" ≠
      "row has 2 fields, expected 1" :=
  ⟨rfl, by decide⟩

/-- C5 (amended): whenever some data row has a field count different
from the header, conversion fails; and when every earlier row converts
successfully, the error is the field-count-mismatch error naming the
two counts (rows are never truncated or padded).  An error on an
earlier row, such as a value-coercion failure, may be reported
instead. -/
theorem convertCSVToJSON_field_count :
    (∀ (header : List String) (rows : List (List String)),
      (∃ r ∈ rows, r.length ≠ header.length) →
      ∃ e, convertCSVToJSON (header :: rows) = .error e) ∧
    (∀ (header : List String) (pre : List (List String)) (row : List String)
        (post : List (List String)), header ≠ [] →
      (∀ r ∈ pre, ∃ m, processRow header r = .ok m) →
      row.length ≠ header.length →
      convertCSVToJSON (header :: (pre ++ row :: post)) =
        .error ("row has " ++ toString row.length ++ " fields, expected "
          ++ toString header.length)) := by
  constructor
  · intro header rows h
    by_cases hhe : header.length = 0
    · exact ⟨"missing header row", by simp [convertCSVToJSON, hhe]⟩
    · obtain ⟨e, he⟩ := convertRows_mismatch rows header h
      exact ⟨e, by simp [convertCSVToJSON, hhe, he]⟩
  · intro header pre row post hh hok hlen
    have hhe : ¬ header.length = 0 := by simpa [List.length_eq_zero] using hh
    have hrows := convertRows_first_mismatch pre header row post hok hlen
    simp [convertCSVToJSON, hhe, hrows]

/-- Witness for the C5 theorem: one good row, then a two-field row
against a one-field header. -/
theorem convertCSVToJSON_field_count_witness :
    (∃ e, convertCSVToJSON [["a"], ["1", "2"]] = .error e) ∧
    convertCSVToJSON [["a"], ["x"], ["1", "2"]] =
      .error "row has 2 fields, expected 1" := by
  constructor
  · exact convertCSVToJSON_field_count.1 ["a"] [["1", "2"]]
      ⟨["1", "2"], List.mem_cons_self _ _, by decide⟩
  · have h := convertCSVToJSON_field_count.2 ["a"] [["x"]] ["1", "2"] []
      (by decide)
      (by
        intro r hr
        have : r = ["x"] := by simpa using hr
        subst this
        exact ⟨[("a", GoVal.str "x")], rfl⟩)
      (by decide)
    simpa using h

/-- Walking inside an empty map never meets an existing non-object. -/
theorem conflictPrefix_nil : ∀ (path acc : List String),
    conflictPrefix [] acc path = none := by
  intro path acc
  cases path with
  | nil => rfl
  | cons s rest =>
    cases rest with
    | nil => rfl
    | cons s2 rest2 => simp [conflictPrefix, mapGet]

/-- The walk of setNestedValue, on a path of non-empty segments, fails
exactly at the first intermediate prefix holding a non-object value,
naming that prefix; with no such conflict it succeeds. -/
theorem setNestedValueGo_conflict : ∀ (path : List String) (m : GoMap)
    (acc : List String) (v : GoVal), path ≠ [] → (∀ s ∈ path, s ≠ "") →
    (match conflictPrefix m acc path with
     | some p => setNestedValueGo m acc path v =
         .error (String.intercalate "." p ++ " is not an object")
     | none => ∃ m2, setNestedValueGo m acc path v = .ok m2) := by
  intro path
  induction path with
  | nil =>
    intro m acc v hne _
    exact absurd rfl hne
  | cons seg rest ih =>
    intro m acc v _ hseg
    have hs : seg ≠ "" := hseg seg (List.mem_cons_self _ _)
    cases rest with
    | nil =>
      exact ⟨mapSet m seg v, by simp [setNestedValueGo, hs]⟩
    | cons s2 rest2 =>
      have hseg2 : ∀ s ∈ s2 :: rest2, s ≠ "" :=
        fun s hsm => hseg s (List.mem_cons_of_mem _ hsm)
      cases hget : mapGet m seg with
      | none =>
        have hrec := ih [] (acc ++ [seg]) v (by simp) hseg2
        rw [conflictPrefix_nil] at hrec
        obtain ⟨m2, hm2⟩ := hrec
        have hcp : conflictPrefix m acc (seg :: s2 :: rest2) = none := by
          simp [conflictPrefix, hget]
        rw [hcp]
        exact ⟨mapSet m seg (GoVal.obj m2),
          by simp [setNestedValueGo, hs, hget, hm2]⟩
      | some val =>
        cases val with
        | obj nested =>
          have hrec := ih nested (acc ++ [seg]) v (by simp) hseg2
          have hcp : conflictPrefix m acc (seg :: s2 :: rest2) =
              conflictPrefix nested (acc ++ [seg]) (s2 :: rest2) := by
            simp [conflictPrefix, hget]
          rw [hcp]
          cases hsub : conflictPrefix nested (acc ++ [seg]) (s2 :: rest2) with
          | some p =>
            rw [hsub] at hrec
            simp [setNestedValueGo, hs, hget, hrec]
          | none =>
            rw [hsub] at hrec
            obtain ⟨m2, hm2⟩ := hrec
            exact ⟨mapSet m seg (GoVal.obj m2),
              by simp [setNestedValueGo, hs, hget, hm2]⟩
        | null =>
          have hcp : conflictPrefix m acc (seg :: s2 :: rest2) =
              some (acc ++ [seg]) := by simp [conflictPrefix, hget]
          rw [hcp]
          simp [setNestedValueGo, hs, hget]
        | num r =>
          have hcp : conflictPrefix m acc (seg :: s2 :: rest2) =
              some (acc ++ [seg]) := by simp [conflictPrefix, hget]
          rw [hcp]
          simp [setNestedValueGo, hs, hget]
        | bool b =>
          have hcp : conflictPrefix m acc (seg :: s2 :: rest2) =
              some (acc ++ [seg]) := by simp [conflictPrefix, hget]
          rw [hcp]
          simp [setNestedValueGo, hs, hget]
        | str s =>
          have hcp : conflictPrefix m acc (seg :: s2 :: rest2) =
              some (acc ++ [seg]) := by simp [conflictPrefix, hget]
          rw [hcp]
          simp [setNestedValueGo, hs, hget]
        | arr l =>
          have hcp : conflictPrefix m acc (seg :: s2 :: rest2) =
              some (acc ++ [seg]) := by simp [conflictPrefix, hget]
          rw [hcp]
          simp [setNestedValueGo, hs, hget]

/-- C6 counterexample: on the path with an empty first segment,
setNestedValue fails with an empty-key-segment error although no
intermediate segment exists with a non-object value, so failure is not
exactly characterized by such conflicts. -/
theorem setNestedValue_conflict_cex :
    setNestedValue [] ["", "a"] GoVal.null = .error "empty key segment" ∧
    conflictPrefix [] [] ["", "a"] = none :=
  ⟨rfl, rfl⟩

/-- C6 (amended): for every record and every non-empty key path whose
segments are all non-empty, setNestedValue walks the segments left to
right (creating fresh objects at absent intermediates) and fails,
naming the offending dotted prefix, exactly when an intermediate
segment already exists with a non-object value; the empty path and
paths with an empty segment fail with empty-key errors instead. -/
theorem setNestedValue_conflict_characterization (m : GoMap)
    (path : List String) (v : GoVal)
    (hne : path ≠ []) (hseg : ∀ s ∈ path, s ≠ "") :
    match conflictPrefix m [] path with
    | some p => setNestedValue m path v =
        .error (String.intercalate "." p ++ " is not an object")
    | none => ∃ m2, setNestedValue m path v = .ok m2 :=
  setNestedValueGo_conflict path m [] v hne hseg

/-- Witness for the C6 theorem: a conflicting prefix is reported with
its name, and a conflict-free path succeeds. -/
theorem setNestedValue_conflict_characterization_witness :
    setNestedValue [("a", GoVal.str "x")] ["a", "b"] GoVal.null =
      .error "a is not an object" ∧
    ∃ m2, setNestedValue [] ["c", "d"] GoVal.null = .ok m2 := by
  constructor
  · exact setNestedValue_conflict_characterization [("a", GoVal.str "x")]
      ["a", "b"] GoVal.null (by decide) (by decide)
  · exact setNestedValue_conflict_characterization [] ["c", "d"] GoVal.null
      (by decide) (by decide)

/-- Character-list prefix test agrees with the prefix relation. -/
theorem listStartsWith_iff : ∀ (pat cs : List Char),
    listStartsWith pat cs = true ↔ pat <+: cs := by
  intro pat
  induction pat with
  | nil =>
    intro cs
    simp [listStartsWith, List.nil_prefix]
  | cons p ps ih =>
    intro cs
    cases cs with
    | nil => simp [listStartsWith, List.prefix_nil]
    | cons c rest => simp [listStartsWith, ih, List.cons_prefix_cons]

/-- The strings.Contains model agrees with the infix relation. -/
theorem goContainsList_iff : ∀ (cs pat : List Char),
    goContainsList pat cs = true ↔ pat <:+: cs := by
  intro cs
  induction cs with
  | nil =>
    intro pat
    simp [goContainsList, List.infix_nil]
  | cons c rest ih =>
    intro pat
    simp [goContainsList, listStartsWith_iff, ih, List.infix_cons_iff]

/-- C7: when the template contains the literal placeholder token,
buildProxyURL substitutes every occurrence of the token with the
percent-encoded target; otherwise it concatenates the template with the
target verbatim. -/
theorem buildProxyURL_spec (template target : String) :
    buildProxyURL template target =
      if ("\x7burl\x7d" : String).toList <:+: template.toList then
        goReplaceAll template "\x7burl\x7d" (queryEscape target)
      else template ++ target := by
  unfold buildProxyURL
  by_cases h : ("\x7burl\x7d" : String).toList <:+: template.toList
  · rw [if_pos h, if_pos]
    exact (goContainsList_iff _ _).mpr h
  · rw [if_neg h, if_neg]
    intro hc
    exact h ((goContainsList_iff _ _).mp hc)

example : buildProxyURL "https://proxy.example/?u=\x7burl\x7d" "http://a b/c" =
    "https://proxy.example/?u=http%3A%2F%2Fa+b%2Fc" := rfl

example : buildProxyURL "https://proxy.example/?u=" "http://a" =
    "https://proxy.example/?u=http://a" := rfl

/-- C8 counterexample: the configured proxy template consisting of one
space is a non-empty string, yet the target list is the one-element
list, not a two-element list. -/
theorem buildFuelFinderTargets_whitespace_cex :
    buildFuelFinderTargets " " = [fuelFinderURL] ∧ (" " : String) ≠ "" ∧
      (buildFuelFinderTargets " ").length = 1 :=
  ⟨rfl, by decide, rfl⟩

/-- C8 (amended): with the configured template empty or
whitespace-only, buildFuelFinderTargets returns exactly the canonical
URL; with a template that is non-empty after trimming, it returns
exactly the canonical URL followed by the proxy target built from the
trimmed template; the canonical URL is always first. -/
theorem buildFuelFinderTargets_spec (env : String) :
    (goTrimSpace env = "" → buildFuelFinderTargets env = [fuelFinderURL]) ∧
    (goTrimSpace env ≠ "" →
      buildFuelFinderTargets env =
        [fuelFinderURL, buildProxyURL (goTrimSpace env) fuelFinderURL]) ∧
    (buildFuelFinderTargets env).head? = some fuelFinderURL := by
  refine ⟨?_, ?_, ?_⟩
  · intro h
    simp [buildFuelFinderTargets, h]
  · intro h
    simp [buildFuelFinderTargets, h]
  · by_cases h : goTrimSpace env = "" <;> simp [buildFuelFinderTargets, h]

/-- Witness for the C8 theorem: a whitespace-only template gives one
target, a real template gives two with the canonical URL first. -/
theorem buildFuelFinderTargets_spec_witness :
    buildFuelFinderTargets "  " = [fuelFinderURL] ∧
    buildFuelFinderTargets " https://proxy.example/?u=" =
      [fuelFinderURL, buildProxyURL "https://proxy.example/?u=" fuelFinderURL] := by
  constructor
  · exact (buildFuelFinderTargets_spec "  ").1 rfl
  · exact (buildFuelFinderTargets_spec " https://proxy.example/?u=").2.1 (by decide)

/-- A failed attempt on the head target records exactly the spec-side
error and passes it on as the running last error. -/
theorem fetchFuelDataGo_fail_step (outcomes : String → FetchOutcome)
    (t : String) (rest : List String) (last : Option String)
    (hfail : attemptSuccess (outcomes t) = none) :
    fetchFuelDataGo outcomes (t :: rest) last =
      fetchFuelDataGo outcomes rest (some (recordedError outcomes t)) := by
  cases hoc : outcomes t with
  | netError msg =>
    simp [fetchFuelDataGo, fetchFuelDataFromURL, recordedError, hoc]
  | response code status body =>
    by_cases hc : code = 200
    · subst hc
      have hb : body.length = 0 := by
        by_contra hb
        rw [hoc] at hfail
        simp [attemptSuccess, hb] at hfail
      simp [fetchFuelDataGo, fetchFuelDataFromURL, recordedError, hoc, hb]
    · simp [fetchFuelDataGo, fetchFuelDataFromURL, recordedError, hoc, hc]

/-- A successful attempt on the head target returns its body at once. -/
theorem fetchFuelDataGo_success_step (outcomes : String → FetchOutcome)
    (t : String) (rest : List String) (last : Option String) (body : List Nat)
    (hsucc : attemptSuccess (outcomes t) = some body) :
    fetchFuelDataGo outcomes (t :: rest) last = .ok body := by
  cases hoc : outcomes t with
  | netError msg =>
    rw [hoc] at hsucc
    simp [attemptSuccess] at hsucc
  | response code status b =>
    rw [hoc] at hsucc
    by_cases hc : code = 200
    · subst hc
      by_cases hb : b.length = 0
      · simp [attemptSuccess, hb] at hsucc
      · have hbb : b = body := by simpa [attemptSuccess, hb] using hsucc
        subst hbb
        simp [fetchFuelDataGo, fetchFuelDataFromURL, hoc, hb]
    · simp [attemptSuccess, hc] at hsucc

/-- The fetch loop with an explicit running error equals the spec-side
description: first success body, else last target error, else the
running error, else the generic failure. -/
theorem fetchFuelDataGo_spec (outcomes : String → FetchOutcome) :
    ∀ (targets : List String) (last : Option String),
    fetchFuelDataGo outcomes targets last =
      (match firstSuccessBody outcomes targets with
       | some body => .ok body
       | none =>
         match targets.getLast? with
         | some t => .error (recordedError outcomes t)
         | none =>
           match last with
           | some e => .error e
           | none => .error "failed to fetch fuel data") := by
  intro targets
  induction targets with
  | nil =>
    intro last
    cases last with
    | none => rfl
    | some e => rfl
  | cons t rest ih =>
    intro last
    cases hatt : attemptSuccess (outcomes t) with
    | some body =>
      rw [fetchFuelDataGo_success_step outcomes t rest last body hatt]
      simp [firstSuccessBody, hatt]
    | none =>
      rw [fetchFuelDataGo_fail_step outcomes t rest last hatt, ih]
      have hfs : firstSuccessBody outcomes (t :: rest) =
          firstSuccessBody outcomes rest := by
        simp [firstSuccessBody, hatt]
      rw [hfs]
      cases hfsr : firstSuccessBody outcomes rest with
      | some b => rfl
      | none =>
        cases rest with
        | nil => simp [List.getLast?_singleton]
        | cons t2 rest2 => simp [List.getLast?_cons]

/-- C9: fetchFuelData returns the body of the first target in order
whose attempt yields HTTP 200 with a non-empty body, skipping targets
that yield a transport error, a non-200 status, or an empty body; when
every target fails it returns the error recorded for the last target,
and the generic failed-to-fetch error exactly when the target list is
empty. -/
theorem fetchFuelData_spec (outcomes : String → FetchOutcome)
    (targets : List String) :
    fetchFuelData outcomes targets =
      match firstSuccessBody outcomes targets with
      | some body => .ok body
      | none =>
        match targets.getLast? with
        | some t => .error (recordedError outcomes t)
        | none => .error "failed to fetch fuel data" :=
  fetchFuelDataGo_spec outcomes targets none

example : fetchFuelData (fun _ => FetchOutcome.netError "timeout") ["a", "b"] =
    .error "fetch fuel data: timeout" := rfl

example : fetchFuelData (fun t =>
    if t = "a" then FetchOutcome.response 503 "503 Service Unavailable" [7]
    else FetchOutcome.response 200 "200 OK" [1, 2]) ["a", "b"] = .ok [1, 2] := rfl

example : fetchFuelData (fun t =>
    if t = "a" then FetchOutcome.response 200 "200 OK" []
    else FetchOutcome.netError "connection refused") ["a", "b"] =
    .error "fetch fuel data: connection refused" := rfl

example : fetchFuelData (fun _ => FetchOutcome.netError "x") [] =
    .error "failed to fetch fuel data" := rfl
